import Mathlib

/-!
# Dream: input events, resource loaders and the pixel-buffer texture cache

A shallow embedding of parts of the Dream framework
(`Events/Input.h`, `Imaging/Image.cpp`, `Text/Font.cpp`,
`Client/Graphics/PixelBufferRenderer.h`) together with the properties
proved about them.

Conventions.
* `DeviceT`, `ButtonT` and `StateT` are `unsigned`; they are natural numbers
  here.  The only operations applied to them are comparisons, which cannot
  overflow.
* `Vec3` is `Vector<3, RealT>`.  The scalar type is a parameter `R` of the
  development; only its subtraction is used.
* A C++ member function is a Lean function whose first argument is the
  object.
-/

namespace Dream

/-! ## Numerics -/

namespace Numerics

/-- Modelled from the spec: `Numerics/Vector.h` is not among the sources.
`Vec3` is a vector of three scalars. -/
structure Vec3 (R : Type) where
  x : R
  y : R
  z : R
deriving DecidableEq, Repr

/-- Modelled from the spec: `Vector::operator-` of `Numerics/Vector.h`,
component-wise subtraction. -/
def Vec3.sub {R : Type} [Sub R] (a b : Vec3 R) : Vec3 R :=
  ⟨a.x - b.x, a.y - b.y, a.z - b.z⟩

instance {R : Type} [Sub R] : Sub (Vec3 R) := ⟨Vec3.sub⟩

/-- The vector all of whose components are zero. -/
def Vec3.zero {R : Type} [Zero R] : Vec3 R := ⟨0, 0, 0⟩

/-- Modelled from the spec: `Vec2u` of `Numerics/Vector.h`, a vector of two
unsigned integers. -/
structure Vec2u where
  x : Nat
  y : Nat
deriving DecidableEq, Repr

/-- Modelled from the spec: `Vec3u` of `Numerics/Vector.h`, a vector of
three unsigned integers; it is the type `PixelCoordinateT` of image sizes. -/
structure Vec3u where
  x : Nat
  y : Nat
  z : Nat
deriving DecidableEq, Repr

/-- Modelled from the spec: `Vector::product` of `Numerics/Vector.h`, the
product of the components, computed in `unsigned` arithmetic. -/
def Vec3u.product (v : Vec3u) : Nat :=
  (v.x * v.y * v.z) % 2 ^ 32

end Numerics

/-! ## Geometry -/

namespace Geometry

/-- Modelled from the spec: `AlignedBox<2>` of `Geometry/AlignedBox.h`, a box
given by its minimum and maximum corner. -/
structure AlignedBox2 (R : Type) where
  minX : R
  minY : R
  maxX : R
  maxY : R
deriving DecidableEq, Repr

end Geometry

/-! ## Events -/

namespace Events

open Numerics Geometry

abbrev DeviceT := Nat
abbrev ButtonT := Nat
abbrev StateT := Nat

/-- The enumeration `Device`. -/
inductive Device where
  | NullDevice
  | DefaultKeyboard
  | DefaultMouse
  | DefaultTouchPad
  | AnyDevice
deriving DecidableEq, Repr

/-- Enumerator values of `Device`. -/
def Device.val : Device → Nat
  | .NullDevice => 0
  | .DefaultKeyboard => 1
  | .DefaultMouse => 2
  | .DefaultTouchPad => 3
  | .AnyDevice => 0xFFFF

/-- The enumeration `State`. -/
inductive State where
  | Released
  | Pressed
  | Dragged
deriving DecidableEq, Repr

/-- Enumerator values of `State`. -/
def State.val : State → Nat
  | .Released => 0
  | .Pressed => 1
  | .Dragged => 2

/-- The enumeration `MouseButton`. -/
inductive MouseButton where
  | NullButton
  | MouseLeftButton
  | MouseMiddleButton
  | MouseRightButton
  | MouseScroll
  | MouseEntered
  | MouseExited
deriving DecidableEq, Repr

/-- Enumerator values of `MouseButton`. -/
def MouseButton.val : MouseButton → Nat
  | .NullButton => 0
  | .MouseLeftButton => 1
  | .MouseMiddleButton => 2
  | .MouseRightButton => 3
  | .MouseScroll => 0xF1
  | .MouseEntered => 0xF2
  | .MouseExited => 0xF3

/-- The class `Key`: a device and its button.  The structure constructor is
`Key (const DeviceT &device, const ButtonT &button)`. -/
structure Key where
  m_device : DeviceT
  m_button : ButtonT
deriving DecidableEq, Repr

namespace Key

def device (k : Key) : DeviceT := k.m_device
def button (k : Key) : ButtonT := k.m_button

/-- The member `operator<`. -/
def lt (self other : Key) : Bool :=
  decide (self.m_device < other.m_device) && decide (self.m_button < other.m_button)

/-- The member `operator<=`. -/
def le (self other : Key) : Bool :=
  decide (self.m_device ≤ other.m_device) && decide (self.m_button ≤ other.m_button)

/-- The member `operator>`. -/
def gt (self other : Key) : Bool :=
  decide (self.m_device > other.m_device) && decide (self.m_button > other.m_button)

/-- The member `operator>=`. -/
def ge (self other : Key) : Bool :=
  decide (self.m_device ≥ other.m_device) && decide (self.m_button ≥ other.m_button)

/-- The member `operator==`. -/
def eq (self other : Key) : Bool :=
  decide (self.m_device = other.m_device) && decide (self.m_button = other.m_button)

/-- The member `operator!=`. -/
def ne (self other : Key) : Bool :=
  !(self.eq other)

end Key

/-- The enumeration `EventInput::EventName`. -/
inductive EventName where
  | EXIT
  | PAUSE
  | RESUME
deriving DecidableEq, Repr

/-- Enumerator values of `EventInput::EventName`. -/
def EventName.val : EventName → Nat
  | .EXIT => 1
  | .PAUSE => 2
  | .RESUME => 3

/-- The class `EventInput`; `m_time` is the field of the base class
`Input`. -/
structure EventInput (R : Type) where
  m_time : R
  m_event : EventName
deriving DecidableEq

/-- The class `ButtonInput`. -/
structure ButtonInput (R : Type) where
  m_time : R
  m_key : Key
  m_state : StateT
deriving DecidableEq

/-- The class `MotionInput`. -/
structure MotionInput (R : Type) where
  m_time : R
  m_key : Key
  m_state : StateT
  m_position : Vec3 R
  m_motion : Vec3 R
  m_bounds : AlignedBox2 R
deriving DecidableEq

/-- The class `ResizeInput`. -/
structure ResizeInput (R : Type) where
  m_time : R
  m_newSize : Vec2u
deriving DecidableEq

/-- The abstract class `Input` with its four concrete subclasses. -/
inductive Input (R : Type) where
  | resize (i : ResizeInput R)
  | button (i : ButtonInput R)
  | motion (i : MotionInput R)
  | event (i : EventInput R)
deriving DecidableEq

namespace ButtonInput

variable {R : Type}

def key (self : ButtonInput R) : Key := self.m_key
def state (self : ButtonInput R) : StateT := self.m_state

/-- The member `buttonPressed (const char b)`.  The character `b` is given
by its integer value; comparing it with the `unsigned` button converts it to
`unsigned`, that is, reduces it modulo `2 ^ 32`. -/
def buttonPressed (self : ButtonInput R) (b : Int) : Bool :=
  decide (self.m_state = State.Pressed.val) &&
    decide ((self.m_key.button : Int) = b % 2 ^ 32)

/-- The member `buttonReleased (const char b)`. -/
def buttonReleased (self : ButtonInput R) (b : Int) : Bool :=
  decide (self.m_state = State.Released.val) &&
    decide ((self.m_key.button : Int) = b % 2 ^ 32)

end ButtonInput

namespace MotionInput

variable {R : Type}

def currentPosition (self : MotionInput R) : Vec3 R := self.m_position

def previousPosition [Sub R] (self : MotionInput R) : Vec3 R :=
  self.m_position - self.m_motion

def motion (self : MotionInput R) : Vec3 R := self.m_motion

def bounds (self : MotionInput R) : AlignedBox2 R := self.m_bounds

def key (self : MotionInput R) : Key := self.m_key
def state (self : MotionInput R) : StateT := self.m_state

/-- The member `buttonPressed(MouseButton b) const`. -/
def buttonPressed (self : MotionInput R) (b : MouseButton) : Bool :=
  decide (self.m_state = State.Pressed.val) && decide (self.m_key.button = b.val)

/-- The member `buttonPressedOrDragged(MouseButton b) const`. -/
def buttonPressedOrDragged (self : MotionInput R) (b : MouseButton) : Bool :=
  (decide (self.m_state = State.Pressed.val) || decide (self.m_state = State.Dragged.val)) &&
    decide (self.m_key.button = b.val)

/-- The member `buttonReleased(MouseButton b) const`. -/
def buttonReleased (self : MotionInput R) (b : MouseButton) : Bool :=
  decide (self.m_state = State.Released.val) && decide (self.m_key.button = b.val)

/-- A call of a `const` member function whose body is the single expression
`f`, in state-passing form: the value returned and the object after the
call.  The body assigns to no field. -/
def constCall {β : Type} (f : MotionInput R → β) (self : MotionInput R) : β × MotionInput R :=
  (f self, self)

end MotionInput

/-- The class `IInputHandler`: its four protected virtual member functions.
A handler member function is not `const`, so it takes the state `σ` of the
handler object and returns the "consumed" flag with the state afterwards. -/
structure IInputHandler (R : Type) (σ : Type) where
  resize : σ → ResizeInput R → Bool × σ
  button : σ → ButtonInput R → Bool × σ
  motion : σ → MotionInput R → Bool × σ
  event : σ → EventInput R → Bool × σ

/-- The bodies written in the class `IInputHandler` itself, inherited by a
handler that overrides none of them: each is `{ return false; }`. -/
def IInputHandler.base (R : Type) (σ : Type) : IInputHandler R σ where
  resize := fun s _ => (false, s)
  button := fun s _ => (false, s)
  motion := fun s _ => (false, s)
  event := fun s _ => (false, s)

/-! ### `std::map` with a comparator

`InputMapper` stores its bindings in a `std::map<Key, ActionT>`, whose
comparator is `std::less<Key>`, that is, `Key::operator<`.  The map is
represented by the sequence of its entries in iteration order.  The position
of a key is its lower bound, the first entry whose key is not less than it;
an entry there whose key the searched key is not less than either is the
entry of an equivalent key. -/

namespace StdMap

variable {K V : Type}

/-- The member `find`: the entry of a key equivalent to `k`, when there is
one. -/
def find (less : K → K → Bool) (k : K) : List (K × V) → Option (K × V)
  | [] => none
  | (k1, v1) :: rest =>
    if less k1 k then find less k rest
    else if less k k1 then none
    else some (k1, v1)

/-- The assignment `m[k] = v`: `operator[]` yields the value of the entry of
a key equivalent to `k`, inserting an entry with key `k` at the lower bound
when there is none, and the value is then assigned. -/
def assign (less : K → K → Bool) (k : K) (v : V) : List (K × V) → List (K × V)
  | [] => [(k, v)]
  | (k1, v1) :: rest =>
    if less k1 k then (k1, v1) :: assign less k v rest
    else if less k k1 then (k, v) :: (k1, v1) :: rest
    else (k1, v) :: rest

end StdMap

/-- The class template `InputMapper<ActionT>`. -/
structure InputMapper (ActionT : Type) where
  m_actions : List (Key × ActionT)
deriving DecidableEq

namespace InputMapper

variable {ActionT : Type}

/-- A default-constructed mapper: the map of actions is empty. -/
def empty : InputMapper ActionT := ⟨[]⟩

/-- The member `bind (const Key &e, ActionT a)`. -/
def bind (self : InputMapper ActionT) (e : Key) (a : ActionT) : InputMapper ActionT :=
  ⟨StdMap.assign Key.lt e a self.m_actions⟩

/-- The member `bind (DeviceT d, ButtonT b, ActionT a)`. -/
def bindDeviceButton (self : InputMapper ActionT) (d : DeviceT) (b : ButtonT) (a : ActionT) :
    InputMapper ActionT :=
  let e : Key := ⟨d, b⟩
  ⟨StdMap.assign Key.lt e a self.m_actions⟩

/-- The member `lookup`: `none` stands for the result `false`, and
`some entry` for the result `true` with `entry` the map entry `*i` that was
found. -/
def lookup (self : InputMapper ActionT) (e : Key) : Option (Key × ActionT) :=
  StdMap.find Key.lt e self.m_actions

end InputMapper

/-! ### The input queue -/

/-- Modelled from the spec: the body of `Input::act` in each concrete
subclass (`Events/Input.cpp`) is not among the sources.  Each concrete event
variant calls back into exactly one corresponding member function of the
handler: `resize`, `button`, `motion` or `event`. -/
def Input.act {R σ : Type} (self : Input R) (handler : IInputHandler R σ) (s : σ) : Bool × σ :=
  match self with
  | .resize i => handler.resize s i
  | .button i => handler.button s i
  | .motion i => handler.motion s i
  | .event i => handler.event s i

/-- The class `InputQueue`: the member `m_queue`, the pending input records
in arrival order. -/
structure InputQueue (R : Type) where
  m_queue : List (Input R)
deriving DecidableEq

namespace InputQueue

variable {R σ : Type}

/-- A freshly constructed queue: nothing is pending. -/
def empty : InputQueue R := ⟨[]⟩

/-- Modelled from the spec: the bodies of the members of `InputQueue`
(`Events/Input.cpp`) and the class `Events::Queue` (`Events/Thread.h`) are
not among the sources.  `enqueue(event)` appends to the tail. -/
def enqueue (self : InputQueue R) (event : Input R) : InputQueue R :=
  ⟨self.m_queue ++ [event]⟩

/-- Modelled from the spec: the body of `InputQueue::dequeue`
(`Events/Input.cpp`) is not among the sources.  `dequeue(handler)` drains the
entire current backlog and dispatches each event, in arrival order, via
`act`.  The result is the queue and the handler state afterwards. -/
def dequeue (self : InputQueue R) (handler : IInputHandler R σ) (s : σ) : InputQueue R × σ :=
  (⟨[]⟩, self.m_queue.foldl (fun st i => (i.act handler st).2) s)

end InputQueue

/-- One call of a handler member function, with the record passed to it. -/
inductive HandlerCall (R : Type) where
  | resize (i : ResizeInput R)
  | button (i : ButtonInput R)
  | motion (i : MotionInput R)
  | event (i : EventInput R)
deriving DecidableEq

/-- A handler with every call made to it recorded.  Each member function does
what that of `handler` does to the handler state and returns what it returns;
beside the handler state it keeps the record of the calls so far, in call
order, and appends the call to it. -/
def IInputHandler.traced {R σ : Type} (handler : IInputHandler R σ) :
    IInputHandler R (σ × List (HandlerCall R)) where
  resize := fun s i =>
    ((handler.resize s.1 i).1, ((handler.resize s.1 i).2, s.2 ++ [HandlerCall.resize i]))
  button := fun s i =>
    ((handler.button s.1 i).1, ((handler.button s.1 i).2, s.2 ++ [HandlerCall.button i]))
  motion := fun s i =>
    ((handler.motion s.1 i).1, ((handler.motion s.1 i).2, s.2 ++ [HandlerCall.motion i]))
  event := fun s i =>
    ((handler.event s.1 i).1, ((handler.event s.1 i).2, s.2 ++ [HandlerCall.event i]))

/-- The handler call that delivers an input record: the member function named
after the variant of the record, applied to the record. -/
def Input.delivery {R : Type} : Input R → HandlerCall R
  | .resize i => HandlerCall.resize i
  | .button i => HandlerCall.button i
  | .motion i => HandlerCall.motion i
  | .event i => HandlerCall.event i

/-- An operation on an input queue: `enqueue(event)`, or `dequeue(handler)`
with the handler passed to it. -/
inductive QueueOp (R σ : Type) where
  | enqueue (event : Input R)
  | dequeue (handler : IInputHandler R σ)

/-- One operation on a queue, with the handler state. -/
def QueueOp.apply {R σ : Type} (st : InputQueue R × σ) : QueueOp R σ → InputQueue R × σ
  | .enqueue event => (st.1.enqueue event, st.2)
  | .dequeue handler => st.1.dequeue handler st.2

/-- A sequence of operations, from left to right. -/
def QueueOp.applyAll {R σ : Type} (ops : List (QueueOp R σ)) (st : InputQueue R × σ) :
    InputQueue R × σ :=
  ops.foldl QueueOp.apply st

/-- One operation on a queue, with the handler state and the record of the
calls made to the handlers: a `dequeue(handler)` dispatches to the handler
with its calls recorded. -/
def QueueOp.step {R σ : Type} (st : InputQueue R × (σ × List (HandlerCall R))) :
    QueueOp R σ → InputQueue R × (σ × List (HandlerCall R))
  | .enqueue event => (st.1.enqueue event, st.2)
  | .dequeue handler => st.1.dequeue handler.traced st.2

/-- A sequence of operations with the calls recorded, from left to right. -/
def QueueOp.run {R σ : Type} (ops : List (QueueOp R σ))
    (st : InputQueue R × (σ × List (HandlerCall R))) :
    InputQueue R × (σ × List (HandlerCall R)) :=
  ops.foldl QueueOp.step st

/-- The records enqueued by a sequence of operations, in enqueue order. -/
def QueueOp.enqueued {R σ : Type} : List (QueueOp R σ) → List (Input R)
  | [] => []
  | .enqueue event :: ops => event :: QueueOp.enqueued ops
  | .dequeue _ :: ops => QueueOp.enqueued ops

end Events

/-! ## Resources -/

namespace Resources

/-- The exception class `LoadError`, carrying the message `_what`. -/
structure LoadError where
  _what : String
deriving DecidableEq, Repr

/-- Modelled from the spec: the normalisation of extension strings done by
the loader registry (`Resources/Loader.cpp`, not among the sources);
extensions are case-insensitive, so each is taken to lower case. -/
def normalizeExtension (ext : String) : String :=
  String.mk (ext.data.map Char.toLower)

/-- Modelled from the spec: the loader registry behind the interface
`ILoader` (`Resources/Loader.h`, not among the sources), a mapping from
normalised file-extension string to loader.  `L` is the type of loader
identities. -/
structure ILoader (L : Type) where
  loaders : List (String × L)
deriving DecidableEq

namespace ILoader

variable {L : Type}

/-- A registry without any loader. -/
def empty : ILoader L := ⟨[]⟩

/-- The entry of the registry for a normalised extension. -/
def entry (self : ILoader L) (key : String) : Option L :=
  self.loaders.lookup key

/-- Modelled from the spec: `set_loader_for_extension(loadable, extension)`
maps the normalised extension to the loader, replacing an earlier mapping of
it. -/
def set_loader_for_extension (self : ILoader L) (loadable : L) (ext : String) : ILoader L :=
  ⟨(normalizeExtension ext, loadable) ::
    self.loaders.filter (fun p => p.1 != normalizeExtension ext)⟩

/-- Modelled from the spec: `find_loader(extension_string)` is the loader
registered for the normalised extension, or not-found (`none`). -/
def find_loader (self : ILoader L) (ext : String) : Option L :=
  self.entry (normalizeExtension ext)

end ILoader

end Resources

/-! ## Imaging -/

namespace Imaging

open Resources

/-- The member `Image::Loader::register_loader_types`; `this` is the loader
object itself. -/
def Image.Loader.register_loader_types {L : Type} (this : L) (loader : ILoader L) : ILoader L :=
  let loader := loader.set_loader_for_extension this "jpg"
  loader.set_loader_for_extension this "png"

open Numerics

/-- A byte, `ByteT`. -/
abbrev ByteT := Nat

/-- The enumeration `PixelFormat` of `Imaging/PixelBuffer.h`, by value. -/
abbrev PixelFormat := Nat

/-- The enumeration `DataType` of `Imaging/PixelBuffer.h`, by value. -/
abbrev DataType := Nat

/-- Modelled from the spec: `DynamicBuffer::resize` of `Core/Buffer.h`, not
among the sources; the spec does not describe it, and it is read as the name
says.  The buffer gets the new size; the bytes it had are kept
and a byte at a new position `i` is whatever the allocation holds there,
`fresh i`. -/
def DynamicBuffer.resize (fresh : Nat → ByteT) (size : Nat) (data : List ByteT) : List ByteT :=
  (List.range size).map (fun i => data.getD i (fresh i))

/-- Modelled from the spec: `MutableBuffer::assign(other_begin, other_end,
offset)` of `Core/Buffer.h`, not among the sources; the spec does not
describe it, and it is read as its three arguments imply.  It is called with
`other_end = other_begin + length`: the `length` bytes from `other_begin` on
are copied to the positions from `offset` on.  `other_begin i` is the byte at
`other_begin + i`.  The size of the buffer stays; a copy past its end is
outside the model. -/
def MutableBuffer.assign (other_begin : Nat → ByteT) (length offset : Nat)
    (data : List ByteT) : List ByteT :=
  (List.range data.length).map
    (fun i => if offset ≤ i ∧ i < offset + length then other_begin (i - offset) else data.getD i 0)

/-- The class `Image`: size, pixel format, data type and pixel data. -/
structure Image where
  _size : Vec3u
  _format : PixelFormat
  _data_type : DataType
  _data : List ByteT
deriving DecidableEq, Repr

namespace Image

/-- The member `Image::allocate`.  The member `pixel_data_length()`, declared
in a header that is not among the sources, is the parameter
`pixel_data_length`, a function of the image it is called on; `fresh` gives
the contents of newly allocated bytes. -/
def allocate (pixel_data_length : Image → Nat) (fresh : Nat → ByteT) (self : Image)
    (size : Vec3u) (format : PixelFormat) (data_type : DataType) : Image :=
  let self := { self with _size := size }
  let self := { self with _format := format }
  let self := { self with _data_type := data_type }
  { self with _data := DynamicBuffer.resize fresh (pixel_data_length self) self._data }

/-- The member `Image::set_data (std::size_t offset, std::size_t length,
const ByteT* buffer)`. -/
def set_data_at (self : Image) (offset length : Nat) (buffer : Nat → ByteT) : Image :=
  { self with _data := MutableBuffer.assign buffer length offset self._data }

/-- The member `Image::set_data (const PixelCoordinateT &size, PixelFormat
format, DataType data_type, const ByteT * buffer)`.  The pointer `buffer` is
`none` when null, and otherwise the memory it points to, by index. -/
def set_data (pixel_data_length : Image → Nat) (fresh : Nat → ByteT) (self : Image)
    (size : Vec3u) (format : PixelFormat) (data_type : DataType)
    (buffer : Option (Nat → ByteT)) : Image :=
  let self := self.allocate pixel_data_length fresh size format data_type
  match buffer with
  | some memory => self.set_data_at 0 self._size.product memory
  | none => self

end Image

end Imaging

/-! ## Text -/

namespace Text

open Resources

/-- The font engine (FreeType), an external library, as far as `Font.cpp`
uses it.  `FT_Face` is the type of face handles and `Data` that of in-memory
font data.  A face-creation call yields its error code and the face handle it
stored; `errors` lists the `FT_ERRORDEF(e, v, s)` entries of the header
`FT_ERRORS_H` as pairs `(v, s)`. -/
structure FontEngine (FT_Face Data : Type) where
  FT_New_Face : String → Int × FT_Face
  FT_New_Memory_Face : Data → Int × FT_Face
  FT_Set_Pixel_Sizes : FT_Face → Nat → Nat → Int
  errors : List (Int × String)

/-- The function `ft2_error_message`: the `switch` over the entries of
`FT_ERRORS_H`, and `"unknown error"` for a code without entry. -/
def ft2_error_message (errors : List (Int × String)) (code : Int) : String :=
  match errors.lookup code with
  | some s => s
  | none => "unknown error"

/-- The pixel format passed to `Detail::FontFace`. -/
inductive PixelFormat where
  | ALPHA
deriving DecidableEq, Repr

/-- The class `Detail::FontFace` as constructed by `Font`: the face handle
and the pixel format. -/
structure FontFace (FT_Face : Type) where
  face : FT_Face
  pixelFormat : PixelFormat
deriving DecidableEq

/-- The class `Path`, as far as `Font.cpp` uses it. -/
structure Path where
  toLocalPath : String
deriving DecidableEq, Repr

/-- The class `Font`: `m_face` is a pointer, `none` when null. -/
structure Font (FT_Face Data : Type) where
  m_face : Option (FontFace FT_Face)
  m_fontData : Option Data
deriving DecidableEq

/-- How a constructor of `Font` can fail: by throwing `LoadError`, or by a
failed `ensure`. -/
inductive Failure where
  | loadError (e : LoadError)
  | ensureFailed
deriving DecidableEq, Repr

namespace Font

variable {FT_Face Data : Type}

/-- The member `setPixelSize`. -/
def setPixelSize (engine : FontEngine FT_Face Data) (self : Font FT_Face Data) (sz : Nat) :
    Except Failure (Font FT_Face Data) :=
  match self.m_face with
  | none => .error .ensureFailed
  | some m_face =>
    let err := engine.FT_Set_Pixel_Sizes m_face.face sz sz
    if err = 0 then .ok self else .error .ensureFailed

/-- The constructor `Font (const Path & p)`. -/
def fromPath (engine : FontEngine FT_Face Data) (p : Path) : Except Failure (Font FT_Face Data) :=
  let self : Font FT_Face Data := ⟨none, none⟩
  let created := engine.FT_New_Face p.toLocalPath
  let err := created.1
  let face := created.2
  if err ≠ 0 then
    .error (.loadError ⟨"Error loading freetype font (" ++ p.toLocalPath ++ "): " ++
      ft2_error_message engine.errors err⟩)
  else
    let self := { self with m_face := some ⟨face, .ALPHA⟩ }
    setPixelSize engine self 12

/-- The constructor `Font (const PTR(IData) data)`. -/
def fromData (engine : FontEngine FT_Face Data) (data : Data) : Except Failure (Font FT_Face Data) :=
  let self : Font FT_Face Data := ⟨none, none⟩
  let created := engine.FT_New_Memory_Face data
  let err := created.1
  let face := created.2
  let self := { self with m_fontData := some data }
  if err ≠ 0 then
    .error (.loadError ⟨"Error loading freetype font:" ++ ft2_error_message engine.errors err⟩)
  else
    let self := { self with m_face := some ⟨face, .ALPHA⟩ }
    setPixelSize engine self 12

end Font

/-- A string occurs in another one as a contiguous part. -/
def Contains (part whole : String) : Prop :=
  part.data <:+: whole.data

instance (part whole : String) : Decidable (Contains part whole) :=
  inferInstanceAs (Decidable (part.data <:+: whole.data))

end Text

/-! ## Client graphics -/

namespace Client.Graphics

/-- Modelled from the spec: the pixel buffer (`IPixelBuffer`, not among the
sources) exposes format, size, its contents, and an identity usable as a
cache key distinct from content equality. -/
structure PixelBuffer where
  identity : Nat
  format : Nat
  size : Nat × Nat
  bytes : List Nat
deriving DecidableEq, Repr

/-- Modelled from the spec: a texture (`Texture`, not among the sources), a
GPU-resident image referenced by a handle, with its format and size. -/
structure Texture where
  handle : Nat
  format : Nat
  size : Nat × Nat
deriving DecidableEq, Repr

/-- One call of `upload(handle, bytes, size, format)`. -/
structure Upload where
  handle : Nat
  bytes : List Nat
  size : Nat × Nat
  format : Nat
deriving DecidableEq, Repr

/-- Modelled from the spec: the texture manager (`TextureManager.h`, not
among the sources), with `create_texture(format, size) -> handle` and
`upload(handle, bytes, size, format)`.  Its state is the next unused handle
and the uploads performed so far, in call order. -/
structure TextureManager where
  next_handle : Nat
  uploads : List Upload
deriving DecidableEq, Repr

namespace TextureManager

/-- Modelled from the spec: `create_texture(format, size) -> handle`. -/
def create_texture (self : TextureManager) (format : Nat) (size : Nat × Nat) :
    Texture × TextureManager :=
  (⟨self.next_handle, format, size⟩, { self with next_handle := self.next_handle + 1 })

/-- Modelled from the spec: `upload(handle, bytes, size, format)`. -/
def upload (self : TextureManager) (t : Texture) (bytes : List Nat) (size : Nat × Nat)
    (format : Nat) : TextureManager :=
  { self with uploads := self.uploads ++ [⟨t.handle, bytes, size, format⟩] }

end TextureManager

/-- The class `PixelBufferRenderer`: the texture manager, the cache of
pixel-buffer to texture mappings, keyed by the identity of the buffer, and the
available textures. -/
structure PixelBufferRenderer where
  _texture_manager : TextureManager
  _texture_cache : List (Nat × Texture)
  _available_textures : List Texture
deriving DecidableEq, Repr

namespace PixelBufferRenderer

/-- The texture cached for a buffer identity. -/
def cached (self : PixelBufferRenderer) (identity : Nat) : Option Texture :=
  self._texture_cache.lookup identity

/-- The number of uploads performed so far. -/
def uploadCount (self : PixelBufferRenderer) : Nat :=
  self._texture_manager.uploads.length

/-- A texture of the pool can be reused for a buffer when format and size
agree. -/
def compatible (b : PixelBuffer) (t : Texture) : Bool :=
  t.format == b.format && t.size == b.size

/-- Modelled from the spec: the body of `PixelBufferRenderer::fetch`
(`PixelBufferRenderer.cpp`) is not among the sources.  On a cache hit with
`invalidate = false` the existing texture is returned unchanged.  On a hit
with `invalidate = true` the contents of the buffer are uploaded again to the
texture of the entry.  On a miss the contents are uploaded to a texture, one
of the pool of available textures when one with compatible format and size
exists, otherwise a new one, and the entry is inserted. -/
def fetch (self : PixelBufferRenderer) (pixel_buffer : PixelBuffer) (invalidate : Bool) :
    Texture × PixelBufferRenderer :=
  match self.cached pixel_buffer.identity with
  | some texture =>
    if invalidate then
      let tm := self._texture_manager.upload texture pixel_buffer.bytes
        pixel_buffer.size pixel_buffer.format
      (texture, { self with _texture_manager := tm })
    else
      (texture, self)
  | none =>
    match self._available_textures.find? (compatible pixel_buffer) with
    | some texture =>
      let tm := self._texture_manager.upload texture pixel_buffer.bytes
        pixel_buffer.size pixel_buffer.format
      (texture,
        { _texture_manager := tm
          _texture_cache := (pixel_buffer.identity, texture) :: self._texture_cache
          _available_textures := self._available_textures.erase texture })
    | none =>
      let (texture, tm) :=
        self._texture_manager.create_texture pixel_buffer.format pixel_buffer.size
      let tm := tm.upload texture pixel_buffer.bytes pixel_buffer.size pixel_buffer.format
      (texture,
        { _texture_manager := tm
          _texture_cache := (pixel_buffer.identity, texture) :: self._texture_cache
          _available_textures := self._available_textures })

end PixelBufferRenderer

end Client.Graphics

/-! ## Sample values -/

namespace Events

open Numerics Geometry

/-- A motion record over the integers whose motion vector is zero. -/
def restingMotion : MotionInput Int :=
  ⟨0, ⟨2, 1⟩, 1, ⟨5, 7, 9⟩, ⟨0, 0, 0⟩, ⟨0, 0, 10, 10⟩⟩

end Events

namespace Imaging

/-- A pixel data length of four bytes per pixel. -/
def fourBytesPerPixel (image : Image) : Nat :=
  image._size.product * 4

/-- An image without pixel data. -/
def blankImage : Image :=
  ⟨⟨0, 0, 0⟩, 0, 0, []⟩

end Imaging

namespace Client.Graphics

/-- A renderer that has fetched nothing yet and has one texture available. -/
def freshRenderer : PixelBufferRenderer :=
  ⟨⟨3, []⟩, [], [⟨1, 4, (8, 8)⟩]⟩

/-- A pixel buffer of two by two pixels. -/
def sampleBuffer : PixelBuffer :=
  ⟨7, 4, (2, 2), [10, 20, 30, 40]⟩

end Client.Graphics

/-! # Properties -/

namespace Events

open Numerics Geometry

/-! ## Motion records -/

/-- C1: for every motion record, `previousPosition()` is
`currentPosition() - motion()`, component by component; when the motion
vector is zero, `previousPosition()` equals `currentPosition()`.  The scalar
type is arbitrary; the zero case uses that subtracting zero changes nothing. -/
theorem previousPosition_eq_current_sub_motion {R : Type} [Sub R] [Zero R]
    (hz : ∀ x : R, x - 0 = x) (m : MotionInput R) :
    m.previousPosition = m.currentPosition - m.motion ∧
    m.previousPosition.x = m.currentPosition.x - m.motion.x ∧
    m.previousPosition.y = m.currentPosition.y - m.motion.y ∧
    m.previousPosition.z = m.currentPosition.z - m.motion.z ∧
    (m.motion = Vec3.zero → m.previousPosition = m.currentPosition) := by
  refine ⟨rfl, rfl, rfl, rfl, ?_⟩
  intro h0
  obtain ⟨t, k, st, ⟨px, py, pz⟩, mo, bd⟩ := m
  simp only [MotionInput.motion] at h0
  subst h0
  show Vec3.sub _ _ = _
  simp [Vec3.sub, Vec3.zero, MotionInput.currentPosition, hz]

/-- The previous position of a resting motion record over the integers. -/
theorem previousPosition_restingMotion :
    (∀ x : Int, x - 0 = x) ∧
    restingMotion.previousPosition = restingMotion.currentPosition - restingMotion.motion ∧
    restingMotion.previousPosition = ⟨5, 7, 9⟩ :=
  ⟨Int.sub_zero,
    (previousPosition_eq_current_sub_motion Int.sub_zero restingMotion).1,
    ((previousPosition_eq_current_sub_motion Int.sub_zero restingMotion).2.2.2.2 rfl).trans rfl⟩

/-! ## Keys -/

/-- C2: `Key(2, 1)` and `Key(1, 2)` are, in both argument orders, not less,
not greater and not equal; so there is a pair of keys for which none of
`<`, `==`, `>` holds, and the ordering operators of `Key` are not a total
order. -/
theorem key_device2_button1_vs_device1_button2 :
    (Key.mk 2 1).lt (Key.mk 1 2) = false ∧ (Key.mk 1 2).lt (Key.mk 2 1) = false ∧
    (Key.mk 2 1).gt (Key.mk 1 2) = false ∧ (Key.mk 1 2).gt (Key.mk 2 1) = false ∧
    (Key.mk 2 1).eq (Key.mk 1 2) = false ∧ (Key.mk 1 2).eq (Key.mk 2 1) = false ∧
    ¬ (∀ a b : Key, a.lt b = true ∨ a.eq b = true ∨ a.gt b = true) := by
  refine ⟨by decide, by decide, by decide, by decide, by decide, by decide, ?_⟩
  intro h
  have := h (Key.mk 2 1) (Key.mk 1 2)
  revert this
  decide

/-- C3: `a == b` holds exactly when devices and buttons agree, `a != b` is
the negation of `a == b`, `==` is an equivalence relation, and for keys built
by the constructor it is equality of the pairs `(device, button)`. -/
theorem key_eq_componentwise :
    (∀ a b : Key, a.eq b = true ↔ a.device = b.device ∧ a.button = b.button) ∧
    (∀ a b : Key, a.ne b = !a.eq b) ∧
    (∀ a b : Key, a.ne b = true ↔ ¬ a.eq b = true) ∧
    Equivalence (fun a b : Key => a.eq b = true) ∧
    (∀ d1 b1 d2 b2 : Nat, (Key.mk d1 b1).eq (Key.mk d2 b2) = true ↔ (d1, b1) = (d2, b2)) ∧
    (∀ d b : Nat, (Key.mk d b).device = d ∧ (Key.mk d b).button = b) := by
  have hiff : ∀ a b : Key, a.eq b = true ↔ a = b := by
    rintro ⟨d1, b1⟩ ⟨d2, b2⟩
    simp [Key.eq]
  refine ⟨?_, fun _ _ => rfl, ?_, ?_, ?_, fun _ _ => ⟨rfl, rfl⟩⟩
  · intro a b
    simp [Key.eq, Key.device, Key.button]
  · intro a b
    simp [Key.ne]
  · refine ⟨fun a => (hiff a a).2 rfl, ?_, ?_⟩
    · intro a b h
      exact (hiff b a).2 ((hiff a b).1 h).symm
    · intro a b c h1 h2
      exact (hiff a c).2 (((hiff a b).1 h1).trans ((hiff b c).1 h2))
  · intro d1 b1 d2 b2
    simp [Key.eq]

/-- C4: the keys `Key(1, 2)` and `Key(2, 1)` are different, yet neither is
less than the other, so the map comparator takes them for equivalent.  In a
mapper that was empty, `bind(k1, a)` followed by `bind(k2, b)` with `a ≠ b`
leaves a single entry, and `lookup(k1)`, which found `a` before the second
`bind`, finds `b` afterwards. -/
theorem inputMapper_bind_conflates_keys {ActionT : Type} (a b : ActionT) (hab : a ≠ b) :
    ∃ k1 k2 : Key,
      k1 = Key.mk 1 2 ∧ k2 = Key.mk 2 1 ∧
      k1.ne k2 = true ∧ k1.lt k2 = false ∧ k2.lt k1 = false ∧
      ((InputMapper.empty.bind k1 a).lookup k1).map Prod.snd = some a ∧
      (((InputMapper.empty.bind k1 a).bind k2 b).m_actions).length = 1 ∧
      (((InputMapper.empty.bind k1 a).bind k2 b).lookup k1).map Prod.snd = some b ∧
      (((InputMapper.empty.bind k1 a).bind k2 b).lookup k1).map Prod.snd ≠ some a ∧
      (((InputMapper.empty.bind k1 a).bind k2 b).lookup k2).map Prod.snd = some b := by
  refine ⟨Key.mk 1 2, Key.mk 2 1, rfl, rfl, by decide, by decide, by decide, ?_, ?_, ?_, ?_, ?_⟩
  · simp [InputMapper.lookup, InputMapper.bind, InputMapper.empty, StdMap.assign, StdMap.find,
      Key.lt]
  · simp [InputMapper.bind, InputMapper.empty, StdMap.assign, Key.lt]
  · simp [InputMapper.lookup, InputMapper.bind, InputMapper.empty, StdMap.assign, StdMap.find,
      Key.lt]
  · simp [InputMapper.lookup, InputMapper.bind, InputMapper.empty, StdMap.assign, StdMap.find,
      Key.lt]
    exact fun h => hab h.symm
  · simp [InputMapper.lookup, InputMapper.bind, InputMapper.empty, StdMap.assign, StdMap.find,
      Key.lt]

/-- Binding the actions `0` and `1` to `Key(1, 2)` and `Key(2, 1)`. -/
theorem inputMapper_bind_conflates_keys_nat :
    (0 : Nat) ≠ 1 ∧
    ∃ k1 k2 : Key,
      k1 = Key.mk 1 2 ∧ k2 = Key.mk 2 1 ∧
      k1.ne k2 = true ∧ k1.lt k2 = false ∧ k2.lt k1 = false ∧
      ((InputMapper.empty.bind k1 (0 : Nat)).lookup k1).map Prod.snd = some 0 ∧
      (((InputMapper.empty.bind k1 (0 : Nat)).bind k2 1).m_actions).length = 1 ∧
      (((InputMapper.empty.bind k1 (0 : Nat)).bind k2 1).lookup k1).map Prod.snd = some 1 ∧
      (((InputMapper.empty.bind k1 (0 : Nat)).bind k2 1).lookup k1).map Prod.snd ≠ some 0 ∧
      (((InputMapper.empty.bind k1 (0 : Nat)).bind k2 1).lookup k2).map Prod.snd = some 1 :=
  ⟨by decide, inputMapper_bind_conflates_keys 0 1 (by decide)⟩

/-! ## Handlers -/

/-- C5: for a handler that overrides none of the handler member functions,
each of `resize`, `button`, `motion` and `event` returns `false` for every
record passed to it (and leaves the handler as it was). -/
theorem base_handler_returns_false {R σ : Type} (s : σ) :
    (∀ i : ResizeInput R, (IInputHandler.base R σ).resize s i = (false, s)) ∧
    (∀ i : ButtonInput R, (IInputHandler.base R σ).button s i = (false, s)) ∧
    (∀ i : MotionInput R, (IInputHandler.base R σ).motion s i = (false, s)) ∧
    (∀ i : EventInput R, (IInputHandler.base R σ).event s i = (false, s)) :=
  ⟨fun _ => rfl, fun _ => rfl, fun _ => rfl, fun _ => rfl⟩

/-! ## Button predicates of motion records -/

/-- C6: `buttonPressedOrDragged(b)` holds exactly when the state is `Pressed`
or `Dragged` and the button of the key is `b`; `buttonPressed(b)` implies
`buttonPressedOrDragged(b)`; `buttonReleased(b)` and
`buttonPressedOrDragged(b)` are never both true; and a call of any of the
three predicates leaves the record as it was. -/
theorem motion_button_predicates {R : Type} (m : MotionInput R) (b : MouseButton) :
    (m.buttonPressedOrDragged b = true ↔
      (m.state = State.Pressed.val ∨ m.state = State.Dragged.val) ∧ m.key.button = b.val) ∧
    (m.buttonPressed b = true → m.buttonPressedOrDragged b = true) ∧
    ¬ (m.buttonReleased b = true ∧ m.buttonPressedOrDragged b = true) ∧
    (MotionInput.constCall (fun self => self.buttonPressed b) m).2 = m ∧
    (MotionInput.constCall (fun self => self.buttonPressedOrDragged b) m).2 = m ∧
    (MotionInput.constCall (fun self => self.buttonReleased b) m).2 = m := by
  refine ⟨?_, ?_, ?_, rfl, rfl, rfl⟩
  · simp [MotionInput.buttonPressedOrDragged, MotionInput.state, MotionInput.key]
  · simp only [MotionInput.buttonPressed, MotionInput.buttonPressedOrDragged,
      Bool.and_eq_true, Bool.or_eq_true, decide_eq_true_eq]
    rintro ⟨h1, h2⟩
    exact ⟨Or.inl h1, h2⟩
  · simp only [MotionInput.buttonReleased, MotionInput.buttonPressedOrDragged,
      Bool.and_eq_true, Bool.or_eq_true, decide_eq_true_eq, State.val]
    rintro ⟨⟨h1, -⟩, (h2 | h2), -⟩
    · exact absurd (h1.symm.trans h2) (by decide)
    · exact absurd (h1.symm.trans h2) (by decide)

end Events

/-! ## The loader registry -/

namespace Resources

/-- Extensions written in lower case are their own normal form. -/
theorem normalizeExtension_jpg_png_gif :
    normalizeExtension "jpg" = "jpg" ∧ normalizeExtension "png" = "png" ∧
    normalizeExtension "gif" = "gif" := by
  refine ⟨?_, ?_, ?_⟩ <;> decide

/-- Removing the entries of one key does not change the entry of another. -/
theorem lookup_filter_ne {L : Type} (key other : String) (h : key ≠ other)
    (l : List (String × L)) :
    (l.filter (fun p => p.1 != other)).lookup key = l.lookup key := by
  induction l with
  | nil => rfl
  | cons p rest ih =>
    obtain ⟨k, v⟩ := p
    by_cases hk : k = other
    · subst hk
      have hne : (key == k) = false := by simpa using h
      simp [List.filter_cons, List.lookup_cons, hne, ih]
    · have hb : (k != other) = true := by simpa using hk
      simp only [List.filter_cons, hb, if_true, List.lookup_cons, ih]

/-- The entries of a registry after `set_loader_for_extension`. -/
theorem entry_set_loader_for_extension {L : Type} (r : ILoader L) (loadable : L)
    (ext key : String) :
    (r.set_loader_for_extension loadable ext).entry key =
      if key = normalizeExtension ext then some loadable else r.entry key := by
  by_cases h : key = normalizeExtension ext
  · subst h
    simp [ILoader.entry, ILoader.set_loader_for_extension, List.lookup_cons]
  · have hne : (key == normalizeExtension ext) = false := by simpa using h
    simp only [ILoader.entry, ILoader.set_loader_for_extension, List.lookup_cons, hne, h,
      if_false]
    exact lookup_filter_ne key _ h _

end Resources

namespace Imaging

open Resources

/-- C7: from any registry, after `register_loader_types` the extensions
`"jpg"` and `"png"` both map to the registering loader and the mapping of
every other extension is as before; on a registry that was empty,
`find_loader("png")` is the loader and `find_loader("gif")` is not-found. -/
theorem register_loader_types_jpg_png {L : Type} (this : L) (r : ILoader L) :
    (Image.Loader.register_loader_types this r).find_loader "jpg" = some this ∧
    (Image.Loader.register_loader_types this r).find_loader "png" = some this ∧
    (∀ key : String, key ≠ "jpg" → key ≠ "png" →
      (Image.Loader.register_loader_types this r).entry key = r.entry key) ∧
    (∀ ext : String, normalizeExtension ext ≠ "jpg" → normalizeExtension ext ≠ "png" →
      (Image.Loader.register_loader_types this r).find_loader ext = r.find_loader ext) ∧
    (Image.Loader.register_loader_types this ILoader.empty).find_loader "png" = some this ∧
    (Image.Loader.register_loader_types this ILoader.empty).find_loader "gif" = none := by
  obtain ⟨hj, hp, hg⟩ := normalizeExtension_jpg_png_gif
  have hentry : ∀ (q : ILoader L) (key : String),
      (Image.Loader.register_loader_types this q).entry key =
        if key = "png" then some this else if key = "jpg" then some this else q.entry key := by
    intro q key
    simp only [Image.Loader.register_loader_types, entry_set_loader_for_extension, hj, hp]
  have hjp : ("jpg" : String) ≠ "png" := by decide
  have hgp : ("gif" : String) ≠ "png" := by decide
  have hgj : ("gif" : String) ≠ "jpg" := by decide
  refine ⟨?_, ?_, ?_, ?_, ?_, ?_⟩
  · simp [ILoader.find_loader, hentry, hj]
  · simp [ILoader.find_loader, hentry, hp]
  · intro key h1 h2
    simp [hentry, h1, h2]
  · intro ext h1 h2
    simp [ILoader.find_loader, hentry, h1, h2]
  · simp [ILoader.find_loader, hentry, hp]
  · rw [ILoader.find_loader, hg, hentry, if_neg hgp, if_neg hgj]
    rfl

end Imaging

/-! ## Fonts -/

namespace Text

open Resources

/-- The last part of a concatenation occurs in it. -/
theorem contains_append_right (a b : String) : Contains b (a ++ b) := by
  unfold Contains
  rw [String.data_append]
  exact (List.suffix_append _ _).isInfix

/-- The first part of a concatenation occurs in it. -/
theorem contains_append_left (a b : String) : Contains a (a ++ b) := by
  unfold Contains
  rw [String.data_append]
  exact (List.prefix_append _ _).isInfix

/-- Occurrence in a string is kept when text is appended. -/
theorem contains_append_of_left (c a b : String) (h : Contains c a) : Contains c (a ++ b) := by
  unfold Contains at *
  rw [String.data_append]
  exact h.trans (List.prefix_append _ _).isInfix

/-- The outcome of `Font (const Path & p)` by the error code of the
face-creation call. -/
theorem fromPath_eq {FT_Face Data : Type} (engine : FontEngine FT_Face Data) (p : Path) :
    Font.fromPath engine p =
      if (engine.FT_New_Face p.toLocalPath).1 ≠ 0 then
        .error (.loadError ⟨"Error loading freetype font (" ++ p.toLocalPath ++ "): " ++
          ft2_error_message engine.errors (engine.FT_New_Face p.toLocalPath).1⟩)
      else if engine.FT_Set_Pixel_Sizes (engine.FT_New_Face p.toLocalPath).2 12 12 = 0 then
        .ok ⟨some ⟨(engine.FT_New_Face p.toLocalPath).2, .ALPHA⟩, none⟩
      else .error .ensureFailed := by
  simp only [Font.fromPath, Font.setPixelSize]

/-- The outcome of `Font (const PTR(IData) data)` by the error code of the
face-creation call. -/
theorem fromData_eq {FT_Face Data : Type} (engine : FontEngine FT_Face Data) (data : Data) :
    Font.fromData engine data =
      if (engine.FT_New_Memory_Face data).1 ≠ 0 then
        .error (.loadError ⟨"Error loading freetype font:" ++
          ft2_error_message engine.errors (engine.FT_New_Memory_Face data).1⟩)
      else if engine.FT_Set_Pixel_Sizes (engine.FT_New_Memory_Face data).2 12 12 = 0 then
        .ok ⟨some ⟨(engine.FT_New_Memory_Face data).2, .ALPHA⟩, some data⟩
      else .error .ensureFailed := by
  simp only [Font.fromData, Font.setPixelSize]

/-- C8: constructing a `Font`, from a path or from in-memory data, throws
`LoadError` exactly when the face-creation call of the font engine returns a
non-zero error code.  The message of the `LoadError` contains the text of
`ft2_error_message` for that code, which is the text the engine lists for the
code, and says what was being loaded: a freetype font and, for the path
constructor, the local path.  When the error code is zero, no `LoadError` is
thrown, a font that is constructed has a non-null face, and a font is
constructed as soon as setting the pixel size succeeds. -/
theorem font_loadError_iff_face_creation_fails {FT_Face Data : Type}
    (engine : FontEngine FT_Face Data) (p : Path) (data : Data) :
    ((∃ e, Font.fromPath engine p = .error (.loadError e)) ↔
      (engine.FT_New_Face p.toLocalPath).1 ≠ 0) ∧
    ((∃ e, Font.fromData engine data = .error (.loadError e)) ↔
      (engine.FT_New_Memory_Face data).1 ≠ 0) ∧
    (∀ e, Font.fromPath engine p = .error (.loadError e) →
      Contains (ft2_error_message engine.errors (engine.FT_New_Face p.toLocalPath).1) e._what ∧
      Contains p.toLocalPath e._what ∧
      Contains "Error loading freetype font" e._what) ∧
    (∀ e, Font.fromData engine data = .error (.loadError e) →
      Contains (ft2_error_message engine.errors (engine.FT_New_Memory_Face data).1) e._what ∧
      Contains "Error loading freetype font" e._what) ∧
    (∀ (code : Int) (text : String), engine.errors.lookup code = some text →
      ft2_error_message engine.errors code = text) ∧
    ((engine.FT_New_Face p.toLocalPath).1 = 0 →
      (∀ font, Font.fromPath engine p = .ok font → font.m_face ≠ none) ∧
      (engine.FT_Set_Pixel_Sizes (engine.FT_New_Face p.toLocalPath).2 12 12 = 0 →
        Font.fromPath engine p =
          .ok ⟨some ⟨(engine.FT_New_Face p.toLocalPath).2, .ALPHA⟩, none⟩)) ∧
    ((engine.FT_New_Memory_Face data).1 = 0 →
      (∀ font, Font.fromData engine data = .ok font → font.m_face ≠ none) ∧
      (engine.FT_Set_Pixel_Sizes (engine.FT_New_Memory_Face data).2 12 12 = 0 →
        Font.fromData engine data =
          .ok ⟨some ⟨(engine.FT_New_Memory_Face data).2, .ALPHA⟩, some data⟩)) := by
  have hparen : ("Error loading freetype font (" : String) = "Error loading freetype font" ++ " (" := by
    decide
  rw [fromPath_eq, fromData_eq]
  refine ⟨?_, ?_, ?_, ?_, ?_, ?_, ?_⟩
  · by_cases h : (engine.FT_New_Face p.toLocalPath).1 = 0
    · simp only [h, ne_eq, not_true_eq_false, if_false, iff_false, not_exists]
      intro e
      split <;> simp
    · simp [h]
  · by_cases h : (engine.FT_New_Memory_Face data).1 = 0
    · simp only [h, ne_eq, not_true_eq_false, if_false, iff_false, not_exists]
      intro e
      split <;> simp
    · simp [h]
  · intro e he
    by_cases h : (engine.FT_New_Face p.toLocalPath).1 = 0
    · exfalso
      simp only [h, ne_eq, not_true_eq_false, if_false] at he
      split at he <;> simp at he
    · simp only [ne_eq, h, not_false_eq_true, if_true, Except.error.injEq,
        Failure.loadError.injEq] at he
      subst he
      refine ⟨contains_append_right _ _, ?_, ?_⟩
      · exact contains_append_of_left _ _ _
          (contains_append_of_left _ _ _ (contains_append_right _ _))
      · rw [hparen]
        exact contains_append_of_left _ _ _
          (contains_append_of_left _ _ _
            (contains_append_of_left _ _ _ (contains_append_left _ _)))
  · intro e he
    by_cases h : (engine.FT_New_Memory_Face data).1 = 0
    · exfalso
      simp only [h, ne_eq, not_true_eq_false, if_false] at he
      split at he <;> simp at he
    · simp only [ne_eq, h, not_false_eq_true, if_true, Except.error.injEq,
        Failure.loadError.injEq] at he
      subst he
      refine ⟨contains_append_right _ _, ?_⟩
      have hcolon : ("Error loading freetype font:" : String) =
          "Error loading freetype font" ++ ":" := by decide
      rw [hcolon]
      exact contains_append_of_left _ _ _ (contains_append_left _ _)
  · intro code text h
    simp [ft2_error_message, h]
  · intro h
    simp only [h, ne_eq, not_true_eq_false, if_false]
    refine ⟨?_, ?_⟩
    · intro font hf
      split at hf
      · simp only [Except.ok.injEq] at hf
        subst hf
        simp
      · simp at hf
    · intro h2
      simp [h2]
  · intro h
    simp only [h, ne_eq, not_true_eq_false, if_false]
    refine ⟨?_, ?_⟩
    · intro font hf
      split at hf
      · simp only [Except.ok.injEq] at hf
        subst hf
        simp
      · simp at hf
    · intro h2
      simp [h2]

end Text

/-! ## The input queue -/

namespace Events

/-- Dispatching a record to a handler with its calls recorded does to the
handler what dispatching to the handler itself does, and appends the call that
delivers the record. -/
theorem act_traced {R σ : Type} (i : Input R) (handler : IInputHandler R σ) (s : σ)
    (log : List (HandlerCall R)) :
    i.act handler.traced (s, log) =
      ((i.act handler s).1, ((i.act handler s).2, log ++ [i.delivery])) := by
  cases i <;> rfl

/-- Dispatching a list of records in order to a handler with its calls
recorded. -/
theorem foldl_act_traced {R σ : Type} (handler : IInputHandler R σ) (pending : List (Input R))
    (s : σ) (log : List (HandlerCall R)) :
    pending.foldl (fun st i => (i.act handler.traced st).2) (s, log) =
      (pending.foldl (fun st i => (i.act handler st).2) s,
        log ++ pending.map Input.delivery) := by
  induction pending generalizing s log with
  | nil => simp
  | cons i rest ih =>
    simp only [List.foldl_cons, List.map_cons]
    rw [act_traced, ih]
    simp

/-- One `dequeue` with any handler, its calls recorded, empties the queue,
leaves the handler as the same `dequeue` without recording does, and appends
the deliveries of the pending records in arrival order. -/
theorem dequeue_traced {R σ : Type} (q : InputQueue R) (handler : IInputHandler R σ) (s : σ)
    (log : List (HandlerCall R)) :
    q.dequeue handler.traced (s, log) =
      (⟨[]⟩, ((q.dequeue handler s).2, log ++ q.m_queue.map Input.delivery)) := by
  simp only [InputQueue.dequeue, foldl_act_traced]

/-- One `dequeue` with calls recorded, from any state. -/
theorem dequeue_traced_state {R σ : Type} (q : InputQueue R) (handler : IInputHandler R σ)
    (st : σ × List (HandlerCall R)) :
    q.dequeue handler.traced st =
      (⟨[]⟩, ((q.dequeue handler st.1).2, st.2 ++ q.m_queue.map Input.delivery)) :=
  dequeue_traced q handler st.1 st.2

/-- The calls recorded so far, followed by the deliveries of the pending
records, are the deliveries of the enqueued records in enqueue order. -/
theorem run_delivered_append_pending {R σ : Type} (ops : List (QueueOp R σ))
    (st : InputQueue R × (σ × List (HandlerCall R))) :
    (QueueOp.run ops st).2.2 ++ (QueueOp.run ops st).1.m_queue.map Input.delivery =
      st.2.2 ++ st.1.m_queue.map Input.delivery ++
        (QueueOp.enqueued ops).map Input.delivery := by
  induction ops generalizing st with
  | nil => simp [QueueOp.run, QueueOp.enqueued]
  | cons op rest ih =>
    have hrun : QueueOp.run (op :: rest) st = QueueOp.run rest (QueueOp.step st op) := rfl
    rw [hrun, ih]
    obtain ⟨q, s, log⟩ := st
    cases op with
    | enqueue event =>
      simp [QueueOp.step, QueueOp.enqueued, InputQueue.enqueue]
    | dequeue handler =>
      simp [QueueOp.step, QueueOp.enqueued, dequeue_traced]

/-- Recording the calls changes neither the queue nor the handler state. -/
theorem run_eq_applyAll {R σ : Type} (ops : List (QueueOp R σ))
    (st : InputQueue R × (σ × List (HandlerCall R))) :
    ((QueueOp.run ops st).1, (QueueOp.run ops st).2.1) =
      QueueOp.applyAll ops (st.1, st.2.1) := by
  induction ops generalizing st with
  | nil => rfl
  | cons op rest ih =>
    have hrun : QueueOp.run (op :: rest) st = QueueOp.run rest (QueueOp.step st op) := rfl
    have happly : QueueOp.applyAll (op :: rest) (st.1, st.2.1) =
        QueueOp.applyAll rest (QueueOp.apply (st.1, st.2.1) op) := rfl
    rw [hrun, happly, ih]
    obtain ⟨q, s, log⟩ := st
    cases op with
    | enqueue event => rfl
    | dequeue handler =>
      simp only [QueueOp.step, QueueOp.apply, dequeue_traced]
      rfl

/-- A sequence of operations followed by one more. -/
theorem run_append_singleton {R σ : Type} (ops : List (QueueOp R σ)) (op : QueueOp R σ)
    (st : InputQueue R × (σ × List (HandlerCall R))) :
    QueueOp.run (ops ++ [op]) st = QueueOp.step (QueueOp.run ops st) op := by
  simp [QueueOp.run, List.foldl_append]

/-- The delivery of a record determines the record. -/
theorem delivery_injective {R : Type} : Function.Injective (Input.delivery : Input R → _) := by
  intro a b h
  cases a <;> cases b <;> simp_all [Input.delivery]

/-- A handler that overrides nothing, and so returns `false` from every member
function, is still called for every pending record: `EXIT` then `PAUSE`. -/
theorem dequeue_base_handler_receives_all :
    QueueOp.run
        [QueueOp.enqueue (Input.event ⟨(0 : Int), EventName.EXIT⟩),
          QueueOp.enqueue (Input.event ⟨(1 : Int), EventName.PAUSE⟩),
          QueueOp.dequeue (IInputHandler.base Int Unit)]
        (InputQueue.empty, ((), [])) =
      (InputQueue.empty,
        ((), [HandlerCall.event ⟨0, EventName.EXIT⟩, HandlerCall.event ⟨1, EventName.PAUSE⟩])) := by
  rfl

/-- C9: for every sequence of `enqueue(event)` and `dequeue(handler)` calls on
a queue that was empty, with arbitrary handlers, whatever their member
functions do and return: the calls made to the handlers so far, followed by
the pending records, are the enqueued records in enqueue order, so nothing is
delivered twice, lost or reordered; recording the calls changes neither queue
nor handler state; one `dequeue(handler)` dispatches exactly the pending
records to `handler`, in arrival order, each to the member function of its
variant, and empties the queue; after a `dequeue` every record enqueued before
it has been delivered as many times as it was enqueued; and enqueuing a button
record then a motion record and dequeuing makes the handler observe `button()`
then `motion()`, each once. -/
theorem inputQueue_delivers_each_event_once {R σ : Type} [DecidableEq R]
    (ops : List (QueueOp R σ)) (s0 : σ) :
    (QueueOp.run ops (InputQueue.empty, (s0, []))).2.2 ++
        (QueueOp.run ops (InputQueue.empty, (s0, []))).1.m_queue.map Input.delivery =
      (QueueOp.enqueued ops).map Input.delivery ∧
    ((QueueOp.run ops (InputQueue.empty, (s0, []))).1,
        (QueueOp.run ops (InputQueue.empty, (s0, []))).2.1) =
      QueueOp.applyAll ops (InputQueue.empty, s0) ∧
    (∀ (q : InputQueue R) (handler : IInputHandler R σ) (s : σ) (log : List (HandlerCall R)),
      q.dequeue handler.traced (s, log) =
        (⟨[]⟩, ((q.dequeue handler s).2, log ++ q.m_queue.map Input.delivery))) ∧
    (∀ (q : InputQueue R) (handler : IInputHandler R σ) (s : σ),
      q.dequeue handler s =
        (⟨[]⟩, q.m_queue.foldl (fun st i => (i.act handler st).2) s)) ∧
    (∀ handler : IInputHandler R σ,
      (QueueOp.run (ops ++ [QueueOp.dequeue handler]) (InputQueue.empty, (s0, []))).1.m_queue =
        [] ∧
      (QueueOp.run (ops ++ [QueueOp.dequeue handler]) (InputQueue.empty, (s0, []))).2.2 =
        (QueueOp.enqueued ops).map Input.delivery ∧
      ∀ event : Input R,
        (QueueOp.run (ops ++ [QueueOp.dequeue handler])
            (InputQueue.empty, (s0, []))).2.2.count event.delivery =
          (QueueOp.enqueued ops).count event) ∧
    (∀ (handler : IInputHandler R σ) (b : ButtonInput R) (m : MotionInput R),
      QueueOp.run [QueueOp.enqueue (Input.button b), QueueOp.enqueue (Input.motion m),
          QueueOp.dequeue handler] (InputQueue.empty, (s0, [])) =
        (InputQueue.empty,
          ((handler.motion (handler.button s0 b).2 m).2,
            [HandlerCall.button b, HandlerCall.motion m]))) := by
  have hinv := run_delivered_append_pending ops
    ((InputQueue.empty, (s0, [])) : InputQueue R × (σ × List (HandlerCall R)))
  simp only [InputQueue.empty, List.map_nil, List.append_nil, List.nil_append] at hinv
  have hall : ∀ handler : IInputHandler R σ,
      (QueueOp.run (ops ++ [QueueOp.dequeue handler]) (InputQueue.empty, (s0, []))).2.2 =
        (QueueOp.enqueued ops).map (Input.delivery : Input R → _) := by
    intro handler
    rw [run_append_singleton]
    simp only [QueueOp.step, dequeue_traced_state]
    exact hinv
  refine ⟨hinv, run_eq_applyAll ops _, dequeue_traced, fun _ _ _ => rfl, ?_, ?_⟩
  · intro handler
    refine ⟨?_, hall handler, ?_⟩
    · rw [run_append_singleton]
      simp only [QueueOp.step, dequeue_traced_state]
    · intro event
      rw [hall handler]
      exact List.count_map_of_injective _ _ delivery_injective event
  · intro handler b m
    rfl

end Events

/-! ## The pixel-buffer texture cache -/

namespace Client.Graphics

open PixelBufferRenderer

/-- A fetch of a buffer whose entry is present, without invalidation, returns
the texture of the entry and changes nothing. -/
theorem fetch_hit {r : PixelBufferRenderer} {b : PixelBuffer} {t : Texture}
    (h : r.cached b.identity = some t) : r.fetch b false = (t, r) := by
  simp [fetch, h]

/-- A fetch of a buffer without cache entry uploads its contents once, to the
texture it returns, and inserts the entry. -/
theorem fetch_miss {r : PixelBufferRenderer} {b : PixelBuffer} (invalidate : Bool)
    (h : r.cached b.identity = none) :
    (r.fetch b invalidate).2._texture_manager.uploads =
        r._texture_manager.uploads ++ [⟨(r.fetch b invalidate).1.handle, b.bytes, b.size, b.format⟩] ∧
    (r.fetch b invalidate).2._texture_cache =
        (b.identity, (r.fetch b invalidate).1) :: r._texture_cache := by
  unfold fetch
  rw [h]
  cases hf : r._available_textures.find? (compatible b) with
  | none => simp [TextureManager.upload, TextureManager.create_texture]
  | some t => simp [TextureManager.upload]

/-- C10: for a pixel buffer without entry in the texture cache, `fetch`
performs exactly one upload, of the contents of the buffer to the texture it
returns, and adds a cache entry for the buffer, leaving the other entries as
they were; a following `fetch` of the buffer with `invalidate = false`
performs no upload, returns the same texture and leaves the renderer, its
cache included, unchanged. -/
theorem fetch_uploads_once_then_reuses (r : PixelBufferRenderer) (b : PixelBuffer)
    (invalidate : Bool) (hmiss : r.cached b.identity = none) :
    (r.fetch b invalidate).2.uploadCount = r.uploadCount + 1 ∧
    (r.fetch b invalidate).2._texture_manager.uploads =
      r._texture_manager.uploads ++
        [⟨(r.fetch b invalidate).1.handle, b.bytes, b.size, b.format⟩] ∧
    (r.fetch b invalidate).2.cached b.identity = some (r.fetch b invalidate).1 ∧
    (r.fetch b invalidate).2._texture_cache =
      (b.identity, (r.fetch b invalidate).1) :: r._texture_cache ∧
    (∀ other : Nat, other ≠ b.identity →
      (r.fetch b invalidate).2.cached other = r.cached other) ∧
    ((r.fetch b invalidate).2.fetch b false).1 = (r.fetch b invalidate).1 ∧
    ((r.fetch b invalidate).2.fetch b false).2 = (r.fetch b invalidate).2 ∧
    ((r.fetch b invalidate).2.fetch b false).2.uploadCount =
      (r.fetch b invalidate).2.uploadCount ∧
    ((r.fetch b invalidate).2.fetch b false).2._texture_cache =
      (r.fetch b invalidate).2._texture_cache := by
  obtain ⟨hup, hcache⟩ := fetch_miss invalidate hmiss
  have hentry : (r.fetch b invalidate).2.cached b.identity =
      some (r.fetch b invalidate).1 := by
    simp [cached, hcache, List.lookup_cons]
  have hsecond := fetch_hit hentry
  refine ⟨?_, hup, hentry, hcache, ?_, ?_, ?_, ?_, ?_⟩
  · simp [uploadCount, hup]
  · intro other hne
    have hb : (other == b.identity) = false := by simpa using hne
    simp [cached, hcache, List.lookup_cons, hb]
  · rw [hsecond]
  · rw [hsecond]
  · rw [hsecond]
  · rw [hsecond]

/-- Fetching the sample buffer twice from the fresh renderer: the texture
created for it has handle `3`, and one upload is performed in all. -/
theorem fetch_sampleBuffer_twice :
    freshRenderer.cached sampleBuffer.identity = none ∧
    (freshRenderer.fetch sampleBuffer false).1 = ⟨3, 4, (2, 2)⟩ ∧
    (freshRenderer.fetch sampleBuffer false).2.uploadCount = freshRenderer.uploadCount + 1 ∧
    ((freshRenderer.fetch sampleBuffer false).2.fetch sampleBuffer false).1 =
      (freshRenderer.fetch sampleBuffer false).1 ∧
    ((freshRenderer.fetch sampleBuffer false).2.fetch sampleBuffer false).2.uploadCount = 1 :=
  ⟨rfl, by decide,
    (fetch_uploads_once_then_reuses freshRenderer sampleBuffer false rfl).1,
    (fetch_uploads_once_then_reuses freshRenderer sampleBuffer false rfl).2.2.2.2.2.1,
    by decide⟩

end Client.Graphics

/-! ## The ordering operators of keys -/

namespace Events

/-- The operators `<` and `<=` in terms of the fields. -/
theorem key_lt_le_iff (a b : Key) :
    (a.lt b = true ↔ a.m_device < b.m_device ∧ a.m_button < b.m_button) ∧
    (a.le b = true ↔ a.m_device ≤ b.m_device ∧ a.m_button ≤ b.m_button) := by
  simp [Key.lt, Key.le]

/-- C13: `operator<` of `Key` is a strict partial order: no key is less than
itself, `a < b` excludes `b < a`, and `a < b` with `b < c` gives `a < c`;
`operator>` is its converse. -/
theorem key_lt_strict_partial_order :
    (∀ a : Key, a.lt a = false) ∧
    (∀ a b : Key, a.lt b = true → b.lt a = false) ∧
    (∀ a b c : Key, a.lt b = true → b.lt c = true → a.lt c = true) ∧
    (∀ a b : Key, a.gt b = b.lt a) ∧
    (∀ a b : Key, a.gt b = true ↔ b.lt a = true) := by
  refine ⟨?_, ?_, ?_, ?_, ?_⟩
  · intro a
    simp [Key.lt]
  · intro a b h
    have h1 := (key_lt_le_iff a b).1.1 h
    cases hba : b.lt a with
    | false => rfl
    | true =>
      have h2 := (key_lt_le_iff b a).1.1 hba
      exact absurd h1.1 (Nat.lt_asymm h2.1)
  · intro a b c hab hbc
    have h1 := (key_lt_le_iff a b).1.1 hab
    have h2 := (key_lt_le_iff b c).1.1 hbc
    exact (key_lt_le_iff a c).1.2 ⟨Nat.lt_trans h1.1 h2.1, Nat.lt_trans h1.2 h2.2⟩
  · intro a b
    simp [Key.gt, Key.lt]
  · intro a b
    simp [Key.gt, Key.lt]

/-- C14: `a < b` or `a == b` implies `a <= b`, but not conversely:
`Key(1, 2) <= Key(2, 2)` holds while `Key(1, 2) < Key(2, 2)` and
`Key(1, 2) == Key(2, 2)` do not.  Nor is `a <= b` the same as `not (b < a)`:
for `Key(2, 1)` and `Key(1, 2)` the former is false and the latter true.
`operator<=` compares both fields with `<=`. -/
theorem key_le_not_derived :
    (∀ a b : Key, a.lt b = true ∨ a.eq b = true → a.le b = true) ∧
    ((Key.mk 1 2).le (Key.mk 2 2) = true ∧ (Key.mk 1 2).lt (Key.mk 2 2) = false ∧
      (Key.mk 1 2).eq (Key.mk 2 2) = false) ∧
    ¬ (∀ a b : Key, a.le b = true → a.lt b = true ∨ a.eq b = true) ∧
    ((Key.mk 2 1).le (Key.mk 1 2) = false ∧ (Key.mk 1 2).lt (Key.mk 2 1) = false) ∧
    ¬ (∀ a b : Key, a.le b = true ↔ ¬ b.lt a = true) ∧
    (∀ a b : Key, a.le b = true ↔ a.device ≤ b.device ∧ a.button ≤ b.button) := by
  refine ⟨?_, by decide, ?_, by decide, ?_, ?_⟩
  · rintro a b (h | h)
    · have h1 := (key_lt_le_iff a b).1.1 h
      exact (key_lt_le_iff a b).2.2 ⟨Nat.le_of_lt h1.1, Nat.le_of_lt h1.2⟩
    · simp only [Key.eq, Bool.and_eq_true, decide_eq_true_eq] at h
      exact (key_lt_le_iff a b).2.2 ⟨Nat.le_of_eq h.1, Nat.le_of_eq h.2⟩
  · intro h
    have := h (Key.mk 1 2) (Key.mk 2 2)
    revert this
    decide
  · intro h
    have := h (Key.mk 2 1) (Key.mk 1 2)
    revert this
    decide
  · intro a b
    exact (key_lt_le_iff a b).2

/-! ## Button predicates of button records -/

/-- C15: with `char` a signed 8-bit integer and `ButtonT` an unsigned 32-bit
integer, `buttonPressed(b)` holds exactly when the state is `Pressed` and the
button of the key is `b` converted to `unsigned`, that is `b mod 2 ^ 32`, and
likewise `buttonReleased(b)` with `Released`.  So for a record whose button
lies in `128..255`, such as `MouseScroll`, no `char` value `b` makes
`buttonPressed(b)` or `buttonReleased(b)` true. -/
theorem buttonInput_char_comparison {R : Type} (i : ButtonInput R) :
    (∀ b : Int, i.buttonPressed b = true ↔
      i.state = State.Pressed.val ∧ (i.key.button : Int) = b % 2 ^ 32) ∧
    (∀ b : Int, i.buttonReleased b = true ↔
      i.state = State.Released.val ∧ (i.key.button : Int) = b % 2 ^ 32) ∧
    (128 ≤ i.key.button → i.key.button ≤ 255 →
      ∀ b : Int, -128 ≤ b → b ≤ 127 →
        i.buttonPressed b = false ∧ i.buttonReleased b = false) ∧
    (i.key.button = MouseButton.MouseScroll.val →
      ∀ b : Int, -128 ≤ b → b ≤ 127 →
        i.buttonPressed b = false ∧ i.buttonReleased b = false) := by
  have hrange : 128 ≤ i.m_key.m_button → i.m_key.m_button ≤ 255 →
      ∀ b : Int, -128 ≤ b → b ≤ 127 → ((i.m_key.m_button : Nat) : Int) ≠ b % 2 ^ 32 := by
    intro h1 h2 b hb1 hb2 heq
    have h1z : (128 : Int) ≤ ((i.m_key.m_button : Nat) : Int) := by exact_mod_cast h1
    have h2z : ((i.m_key.m_button : Nat) : Int) ≤ 255 := by exact_mod_cast h2
    omega
  have hfalse : 128 ≤ i.m_key.m_button → i.m_key.m_button ≤ 255 →
      ∀ b : Int, -128 ≤ b → b ≤ 127 →
        i.buttonPressed b = false ∧ i.buttonReleased b = false := by
    intro h1 h2 b hb1 hb2
    have hne := hrange h1 h2 b hb1 hb2
    simp only [ButtonInput.buttonPressed, ButtonInput.buttonReleased, Key.button,
      Bool.and_eq_false_iff, decide_eq_false_iff_not]
    exact ⟨Or.inr hne, Or.inr hne⟩
  refine ⟨?_, ?_, hfalse, ?_⟩
  · intro b
    simp [ButtonInput.buttonPressed, ButtonInput.state, ButtonInput.key]
  · intro b
    simp [ButtonInput.buttonReleased, ButtonInput.state, ButtonInput.key]
  · intro h
    have h241 : i.m_key.m_button = 241 := h
    have hlo : 128 ≤ i.m_key.m_button := by
      rw [h241]
      exact (by decide : (128 : Nat) ≤ 241)
    have hhi : i.m_key.m_button ≤ 255 := by
      rw [h241]
      exact (by decide : (241 : Nat) ≤ 255)
    exact hfalse hlo hhi

end Events

/-! ## Image data -/

namespace Imaging

open Numerics

/-- A resized buffer has the size asked for. -/
theorem resize_length (fresh : Nat → ByteT) (size : Nat) (data : List ByteT) :
    (DynamicBuffer.resize fresh size data).length = size := by
  simp [DynamicBuffer.resize]

/-- Copying into a buffer keeps its size. -/
theorem assign_length (memory : Nat → ByteT) (length offset : Nat) (data : List ByteT) :
    (MutableBuffer.assign memory length offset data).length = data.length := by
  simp [MutableBuffer.assign]

/-- A byte inside the range copied to is the byte copied. -/
theorem assign_getElem?_inside (memory : Nat → ByteT) (length offset : Nat) (data : List ByteT)
    (i : Nat) (hi : i < data.length) (h1 : offset ≤ i) (h2 : i < offset + length) :
    (MutableBuffer.assign memory length offset data)[i]? = some (memory (i - offset)) := by
  simp [MutableBuffer.assign, List.getElem?_map, List.getElem?_range hi, h1, h2]

/-- A byte outside the range copied to is as before. -/
theorem assign_getElem?_outside (memory : Nat → ByteT) (length offset : Nat) (data : List ByteT)
    (i : Nat) (h : ¬ (offset ≤ i ∧ i < offset + length)) :
    (MutableBuffer.assign memory length offset data)[i]? = data[i]? := by
  by_cases hi : i < data.length
  · simp only [MutableBuffer.assign, List.getElem?_map, List.getElem?_range hi]
    simp only [Option.map, if_neg h]
    simp [List.getD, List.getElem?_eq_getElem hi]
  · have hi2 : data.length ≤ i := Nat.le_of_not_lt hi
    rw [List.getElem?_eq_none hi2, List.getElem?_eq_none]
    rw [assign_length]
    exact hi2

/-- C16: `Image::set_data(size, format, data_type, buffer)` sets size, format
and data type to the arguments and resizes the data to `pixel_data_length()`
bytes.  With a null buffer nothing more happens.  With a non-null buffer the
`size.product()` bytes at the start of the buffer are copied to the start of
the data, and every byte of the data from position `size.product()` on is as
the resizing left it, not a byte of the buffer. -/
theorem set_data_copies_product_bytes (pixel_data_length : Image → Nat) (fresh : Nat → ByteT)
    (image : Image) (size : Vec3u) (format : PixelFormat) (data_type : DataType) :
    ((image.allocate pixel_data_length fresh size format data_type)._size = size ∧
      (image.allocate pixel_data_length fresh size format data_type)._format = format ∧
      (image.allocate pixel_data_length fresh size format data_type)._data_type = data_type ∧
      (image.allocate pixel_data_length fresh size format data_type)._data.length =
        pixel_data_length ⟨size, format, data_type, image._data⟩) ∧
    image.set_data pixel_data_length fresh size format data_type none =
      image.allocate pixel_data_length fresh size format data_type ∧
    (∀ memory : Nat → ByteT,
      (image.set_data pixel_data_length fresh size format data_type (some memory))._size = size ∧
      (image.set_data pixel_data_length fresh size format data_type (some memory))._format =
        format ∧
      (image.set_data pixel_data_length fresh size format data_type (some memory))._data_type =
        data_type ∧
      (image.set_data pixel_data_length fresh size format data_type (some memory))._data.length =
        pixel_data_length ⟨size, format, data_type, image._data⟩ ∧
      (∀ i : Nat, i < size.product →
        i < pixel_data_length ⟨size, format, data_type, image._data⟩ →
        (image.set_data pixel_data_length fresh size format data_type (some memory))._data[i]? =
          some (memory i)) ∧
      (∀ i : Nat, size.product ≤ i →
        (image.set_data pixel_data_length fresh size format data_type (some memory))._data[i]? =
          (image.allocate pixel_data_length fresh size format data_type)._data[i]?)) := by
  have hlen : (image.allocate pixel_data_length fresh size format data_type)._data.length =
      pixel_data_length ⟨size, format, data_type, image._data⟩ := by
    simp [Image.allocate, resize_length]
  refine ⟨⟨rfl, rfl, rfl, hlen⟩, rfl, ?_⟩
  intro memory
  refine ⟨rfl, rfl, rfl, ?_, ?_, ?_⟩
  · simp only [Image.set_data, Image.set_data_at, assign_length]
    exact hlen
  · intro i h1 h2
    simp only [Image.set_data, Image.set_data_at]
    rw [assign_getElem?_inside _ _ _ _ _ (by rw [hlen]; exact h2) (Nat.zero_le _)
      (by simpa [Image.allocate] using h1)]
    simp
  · intro i h
    simp only [Image.set_data, Image.set_data_at]
    apply assign_getElem?_outside
    rintro ⟨-, h2⟩
    have h3 : i < size.product := by simpa [Image.allocate] using h2
    exact absurd h3 (Nat.not_lt.mpr h)

/-- Setting a blank image to two pixels of four bytes each from a buffer
holding `10, 11, 12, …`: two bytes are copied, six are left as allocated. -/
theorem set_data_two_pixels :
    (blankImage.set_data fourBytesPerPixel (fun _ => 255) ⟨2, 1, 1⟩ 0 0
      (some (fun i => 10 + i)))._data = [10, 11, 255, 255, 255, 255, 255, 255] := by
  decide

end Imaging

end Dream
